import Mathlib

/-!
Shallow embedding of the poll/vote business-logic layer of the voting
application (`app/poll_service.py`, `app/models.py`, and the login policy of
`app/auth.py`).

The persistent store is modelled as lists of rows with integer primary keys
assigned from per-table counters (SQL autoincrement).  `session.get(T, id)`
becomes a `find?` on the row list; SQL `count()` queries become lengths of
`filter`s; the exceptions raised by the service become an `Except` error
enumeration; the `False`/`True` outcomes of `cast_vote` and
`deactivate_poll` stay booleans.
-/

namespace Voting

/-- Row of the `users` table (`app/models.py`, class `User`). -/
structure User where
  id : Nat
  username : String
  email : String
deriving DecidableEq, Repr

/-- Row of the `polls` table (`app/models.py`, class `Poll`). -/
structure Poll where
  id : Nat
  title : String
  description : String
  creator_id : Nat
  is_active : Bool
deriving DecidableEq, Repr

/-- Row of the `options` table (`app/models.py`, class `Option`); renamed
`PollOption` to avoid clashing with Lean's `Option`. -/
structure PollOption where
  id : Nat
  text : String
  poll_id : Nat
deriving DecidableEq, Repr

/-- Row of the `votes` table (`app/models.py`, class `Vote`). -/
structure Vote where
  id : Nat
  user_id : Nat
  poll_id : Nat
  option_id : Nat
deriving DecidableEq, Repr

/-- The relational store: one list of rows per table, in insertion order,
plus the autoincrement counter of each table. -/
structure Store where
  users : List User
  polls : List Poll
  options : List PollOption
  votes : List Vote
  next_user_id : Nat
  next_poll_id : Nat
  next_option_id : Nat
  next_vote_id : Nat
deriving DecidableEq, Repr

/-- The store of a freshly created database: no rows, counters at 1. -/
def emptyStore : Store :=
  { users := [], polls := [], options := [], votes := []
    next_user_id := 1, next_poll_id := 1, next_option_id := 1, next_vote_id := 1 }

/-- `session.get(User, user_id)`: primary-key lookup. -/
def getUserRow (s : Store) (uid : Nat) : Option User :=
  s.users.find? (fun u => u.id == uid)

/-- `session.get(Poll, poll_id)`: primary-key lookup. -/
def getPollRow (s : Store) (pid : Nat) : Option Poll :=
  s.polls.find? (fun p => p.id == pid)

/-- `session.get(Option, option_id)`: primary-key lookup. -/
def getOptionRow (s : Store) (oid : Nat) : Option PollOption :=
  s.options.find? (fun o => o.id == oid)

/-- The typed failures raised by the services (each a `ValueError` with a
distinct message in the source; §7 of the design). -/
inductive ServiceError where
  | CreatorNotFound
  | UserNotFound
  | PollNotFound
  | PollInactive
  | OptionNotFound
  | OptionPollMismatch
  | DuplicateUsername
  | DuplicateEmail
deriving DecidableEq, Repr

/-- `PollService.has_user_voted` (`poll_service.py:180-184`): a `SELECT`
for a vote of this user on this poll, truthy iff a row exists. -/
def has_user_voted (s : Store) (pid uid : Nat) : Bool :=
  (s.votes.find? (fun v => v.user_id == uid && v.poll_id == pid)).isSome

/-- `PollService.cast_vote` (`poll_service.py:105-139`).  Checks run in
source order: user, poll, poll active, option, option-poll membership,
existing vote; only then is the vote row written.  Returns the new store
with the boolean the method returns. -/
def cast_vote (s : Store) (pid oid uid : Nat) : Except ServiceError (Bool × Store) :=
  match getUserRow s uid with
  | none => .error .UserNotFound
  | some _ =>
    match getPollRow s pid with
    | none => .error .PollNotFound
    | some poll =>
      if poll.is_active = false then .error .PollInactive
      else
        match getOptionRow s oid with
        | none => .error .OptionNotFound
        | some opt =>
          if opt.poll_id ≠ pid then .error .OptionPollMismatch
          else if has_user_voted s pid uid then .ok (false, s)
          else
            let v : Vote := { id := s.next_vote_id, user_id := uid, poll_id := pid, option_id := oid }
            .ok (true, { s with votes := s.votes ++ [v], next_vote_id := s.next_vote_id + 1 })

/-- `PollService.deactivate_poll` (`poll_service.py:186-199`): `false` when
the poll is missing or the caller is not the creator; otherwise the row's
active flag is set to false and `true` is returned. -/
def deactivate_poll (s : Store) (pid uid : Nat) : Bool × Store :=
  match getPollRow s pid with
  | none => (false, s)
  | some poll =>
    if poll.creator_id ≠ uid then (false, s)
    else
      (true,
       { s with
          polls := s.polls.map (fun p => if p.id == pid then { p with is_active := false } else p) })

/-- The detached poll aggregate built by `PollService.get_poll`
(`poll_service.py:43-71`): the poll row with its creator, options and
votes loaded. -/
structure PollAgg where
  poll : Poll
  creator : Option User
  options : List PollOption
  votes : List Vote
deriving DecidableEq, Repr

/-- `PollService.get_poll` (`poll_service.py:43-71`). -/
def get_poll (s : Store) (pid : Nat) : Option PollAgg :=
  match getPollRow s pid with
  | none => none
  | some poll =>
    some { poll := poll
           creator := getUserRow s poll.creator_id
           options := s.options.filter (fun o => o.poll_id == pid)
           votes := s.votes.filter (fun v => v.poll_id == pid) }

/-- The option rows created by `create_poll`'s loop, one per text in input
order, with consecutive autoincrement ids starting at `startId`. -/
def mkOptions (texts : List String) (pid startId : Nat) : List PollOption :=
  match texts with
  | [] => []
  | t :: ts => { id := startId, text := t, poll_id := pid } :: mkOptions ts pid (startId + 1)

/-- The poll row inserted by `create_poll`. -/
def newPollRow (s : Store) (title descr : String) (cid : Nat) : Poll :=
  { id := s.next_poll_id, title := title, description := descr
    creator_id := cid, is_active := true }

/-- The store after `create_poll`'s inserts: the poll row plus one option
row per text, in input order. -/
def createPollState (s : Store) (title descr : String) (texts : List String) (cid : Nat) :
    Store :=
  { s with
      polls := s.polls ++ [newPollRow s title descr cid]
      options := s.options ++ mkOptions texts s.next_poll_id s.next_option_id
      next_poll_id := s.next_poll_id + 1
      next_option_id := s.next_option_id + texts.length }

/-- `PollService.create_poll` (`poll_service.py:16-41`): verify the
creator, insert the poll row, insert one option row per text in order,
then return the freshly loaded poll (falling back to the bare row as the
source's `or poll` does). -/
def create_poll (s : Store) (title descr : String) (texts : List String) (cid : Nat) :
    Except ServiceError (PollAgg × Store) :=
  match getUserRow s cid with
  | none => .error .CreatorNotFound
  | some _ =>
    match get_poll (createPollState s title descr texts cid) s.next_poll_id with
    | some agg => .ok (agg, createPollState s title descr texts cid)
    | none =>
      .ok ({ poll := newPollRow s title descr cid, creator := none, options := [], votes := [] },
           createPollState s title descr texts cid)

/-- One entry of the results list (`app/models.py`, class `OptionResult`).
The percentage (a float rounded to 2 decimals in the source, hence an
exact multiple of 0.01) is stored in exact fixed point as an integer
number of hundredths: `percentage_hundredths = 6667` means 66.67%. -/
structure OptionResult where
  option_id : Nat
  text : String
  vote_count : Nat
  percentage_hundredths : Nat
deriving DecidableEq, Repr

/-- `app/models.py`, class `PollResults`. -/
structure PollResults where
  poll_id : Nat
  title : String
  description : String
  total_votes : Nat
  options : List OptionResult
deriving DecidableEq, Repr

/-- Python's `round` to the nearest integer with ties to even, on the
exact rational value.  This is the claim-side model of `round`. -/
def roundHalfEven (q : ℚ) : ℤ :=
  if q - ⌊q⌋ < 1 / 2 then ⌊q⌋
  else if 1 / 2 < q - ⌊q⌋ then ⌊q⌋ + 1
  else if ⌊q⌋ % 2 = 0 then ⌊q⌋ else ⌊q⌋ + 1

/-- Python's `round(q, 2)` on the exact rational value.  This is the
claim-side model of the percentage formula's rounding. -/
def round2 (q : ℚ) : ℚ :=
  (roundHalfEven (q * 100) : ℚ) / 100

/-- Round-half-even of the ratio `n / d` (for `d > 0`), computed in
integer arithmetic: the executable counterpart of `roundHalfEven`. -/
def roundHalfEvenDiv (n d : Nat) : Nat :=
  if 2 * (n % d) < d then n / d
  else if d < 2 * (n % d) then n / d + 1
  else if n / d % 2 = 0 then n / d else n / d + 1

/-- `round(vote_count / total_votes * 100, 2)` in hundredths of a
percent: `round2 (vc / tv * 100) * 100` computed in integer arithmetic. -/
def pctHundredths (vc tv : Nat) : Nat :=
  roundHalfEvenDiv (vc * 10000) tv

/-- `COUNT(*) FROM votes WHERE poll_id = pid`. -/
def countVotesForPoll (s : Store) (pid : Nat) : Nat :=
  (s.votes.filter (fun v => v.poll_id == pid)).length

/-- `COUNT(*) FROM votes WHERE option_id = oid` — note: not restricted to
any poll, exactly as in `get_poll_results`. -/
def countVotesForOption (s : Store) (oid : Nat) : Nat :=
  (s.votes.filter (fun v => v.option_id == oid)).length

/-- `PollService.get_poll_results` (`poll_service.py:141-178`). -/
def get_poll_results (s : Store) (pid : Nat) : Option PollResults :=
  match getPollRow s pid with
  | none => none
  | some poll =>
    let total := countVotesForPoll s pid
    let opts := s.options.filter (fun o => o.poll_id == pid)
    some { poll_id := poll.id
           title := poll.title
           description := poll.description
           total_votes := total
           options := opts.map (fun o =>
             let vc := countVotesForOption s o.id
             { option_id := o.id
               text := o.text
               vote_count := vc
               percentage_hundredths := if total > 0 then pctHundredths vc total else 0 }) }

/-- `UserService.create_user` (`poll_service.py:205-222`): username
uniqueness checked first, then email (both by exact string match), then
the row is inserted. -/
def create_user (s : Store) (username email : String) : Except ServiceError (User × Store) :=
  if (s.users.find? (fun u => u.username == username)).isSome then .error .DuplicateUsername
  else if (s.users.find? (fun u => u.email == email)).isSome then .error .DuplicateEmail
  else
    let u : User := { id := s.next_user_id, username := username, email := email }
    .ok (u, { s with users := s.users ++ [u], next_user_id := s.next_user_id + 1 })

/-- `UserService.get_user_by_username` (`poll_service.py:229-232`). -/
def get_user_by_username (s : Store) (username : String) : Option User :=
  s.users.find? (fun u => u.username == username)

/-- Python's `str.lower()` as used on emails in `handle_login`, mapped
over the characters of the string. -/
def pyLower (s : String) : String := ⟨s.data.map Char.toLower⟩

/-- Outcome of a login attempt in `handle_login` (`app/auth.py:57-87`). -/
inductive LoginResult where
  | loggedIn (uid : Nat)
  | emailMismatch
  | createFailed (e : ServiceError)
deriving DecidableEq, Repr

/-- The login/registration policy of `handle_login` (`app/auth.py:57-87`),
after the input-presence and email-shape guards: an existing username
requires a case-insensitive email match; an unknown username goes through
`create_user`, whose failure is reported and leaves no session. -/
def handle_login (s : Store) (username email : String) : LoginResult × Store :=
  match get_user_by_username s username with
  | some u =>
    if pyLower u.email == pyLower email then (.loggedIn u.id, s)
    else (.emailMismatch, s)
  | none =>
    match create_user s username email with
    | .ok (u, s') => (.loggedIn u.id, s')
    | .error e => (.createFailed e, s)

/-- The state-mutating operations of the service layer, for reachability
and temporal claims. -/
inductive Op where
  | createUser (username email : String)
  | createPoll (title descr : String) (texts : List String) (cid : Nat)
  | castVote (pid oid uid : Nat)
  | deactivatePoll (pid uid : Nat)
deriving DecidableEq, Repr

/-- Effect of one operation on the store; a raised error commits nothing. -/
def applyOp (o : Op) (s : Store) : Store :=
  match o with
  | .createUser username email =>
    match create_user s username email with
    | .ok (_, s') => s'
    | .error _ => s
  | .createPoll title descr texts cid =>
    match create_poll s title descr texts cid with
    | .ok (_, s') => s'
    | .error _ => s
  | .castVote pid oid uid =>
    match cast_vote s pid oid uid with
    | .ok (_, s') => s'
    | .error _ => s
  | .deactivatePoll pid uid => (deactivate_poll s pid uid).2

/-- States reachable from the empty database through service operations. -/
inductive Reachable : Store → Prop
  | init : Reachable emptyStore
  | step {s : Store} (o : Op) : Reachable s → Reachable (applyOp o s)

/-- The store invariants the results calculation relies on: option ids
are unique and below their counter, and every vote references an option
belonging to the vote's own poll. -/
structure StoreInv (s : Store) : Prop where
  opt_nodup : (s.options.map PollOption.id).Nodup
  opt_lt : ∀ o ∈ s.options, o.id < s.next_option_id
  vote_opt : ∀ v ∈ s.votes, ∃ o ∈ s.options, o.id = v.option_id ∧ o.poll_id = v.poll_id

/-! Concrete stores used to instantiate the theorems. -/

/-- A registered user. -/
def exUser : User := { id := 1, username := "alice", email := "a@x.com" }

/-- A store holding only the user `exUser`. -/
def exUserStore : Store :=
  { users := [exUser], polls := [], options := [], votes := []
    next_user_id := 2, next_poll_id := 1, next_option_id := 1, next_vote_id := 1 }

/-- A store with one user and one inactive poll with one option. -/
def exC6 : Store :=
  { users := [exUser]
    polls := [{ id := 1, title := "t", description := "", creator_id := 1, is_active := false }]
    options := [{ id := 1, text := "A", poll_id := 1 }]
    votes := []
    next_user_id := 2, next_poll_id := 2, next_option_id := 2, next_vote_id := 1 }

/-- A store with two users, one active poll with two options, and one vote
already cast by user 1 for option 1. -/
def exC10 : Store :=
  { users := [exUser, { id := 2, username := "bob", email := "b@x.com" }]
    polls := [{ id := 1, title := "t", description := "", creator_id := 1, is_active := true }]
    options := [{ id := 1, text := "A", poll_id := 1 }, { id := 2, text := "B", poll_id := 1 }]
    votes := [{ id := 1, user_id := 1, poll_id := 1, option_id := 1 }]
    next_user_id := 3, next_poll_id := 2, next_option_id := 3, next_vote_id := 2 }

/-- The scenario of §8 of the design: four options, 2 votes for the first,
1 for the second, none for the rest. -/
def exResults : Store :=
  { users := [exUser, { id := 2, username := "bob", email := "b@x.com" },
              { id := 3, username := "carol", email := "c@x.com" }]
    polls := [{ id := 1, title := "lang", description := "", creator_id := 1, is_active := true }]
    options := [{ id := 1, text := "Python", poll_id := 1 },
                { id := 2, text := "JavaScript", poll_id := 1 },
                { id := 3, text := "Java", poll_id := 1 },
                { id := 4, text := "Cpp", poll_id := 1 }]
    votes := [{ id := 1, user_id := 1, poll_id := 1, option_id := 1 },
              { id := 2, user_id := 2, poll_id := 1, option_id := 1 },
              { id := 3, user_id := 3, poll_id := 1, option_id := 2 }]
    next_user_id := 4, next_poll_id := 2, next_option_id := 5, next_vote_id := 4 }

/-- The results record `get_poll_results exResults 1` produces. -/
def exResultsR : PollResults :=
  { poll_id := 1, title := "lang", description := "", total_votes := 3
    options := [{ option_id := 1, text := "Python", vote_count := 2, percentage_hundredths := 6667 },
                { option_id := 2, text := "JavaScript", vote_count := 1, percentage_hundredths := 3333 },
                { option_id := 3, text := "Java", vote_count := 0, percentage_hundredths := 0 },
                { option_id := 4, text := "Cpp", vote_count := 0, percentage_hundredths := 0 }] }

/-- A reachable store: user alice, a two-option poll by her, her vote for
option 1. -/
def exReach : Store :=
  applyOp (.castVote 1 1 1)
    (applyOp (.createPoll "t" "" ["A", "B"] 1)
      (applyOp (.createUser "alice" "a@x.com") emptyStore))

/-- The results record `get_poll_results exReach 1` produces. -/
def exReachR : PollResults :=
  { poll_id := 1, title := "t", description := "", total_votes := 1
    options := [{ option_id := 1, text := "A", vote_count := 1, percentage_hundredths := 10000 },
                { option_id := 2, text := "B", vote_count := 0, percentage_hundredths := 0 }] }

/-- The aggregate a successful `create_poll` hands back: the new poll row
with its creator and its freshly inserted options. -/
def createPollAgg (s : Store) (title descr : String) (texts : List String) (cid : Nat) :
    PollAgg :=
  { poll := newPollRow s title descr cid
    creator := getUserRow s cid
    options := mkOptions texts s.next_poll_id s.next_option_id
    votes := s.votes.filter (fun v => v.poll_id == s.next_poll_id) }

/-!  C1: order of the checks in `cast_vote`. -/

/-- C1: `cast_vote` applies its checks in source order — user existence
(`UserNotFound`), poll existence (`PollNotFound`), poll activity
(`PollInactive`), option existence (`OptionNotFound`), option-poll
membership (`OptionPollMismatch`), then the already-voted check (a `false`
return, not an error) — and only then writes the vote and returns `true`;
for an input failing several checks the earliest failure is the one
reported. -/
theorem cast_vote_check_order (s : Store) (pid oid uid : Nat) :
    (getUserRow s uid = none → cast_vote s pid oid uid = .error .UserNotFound) ∧
    (∀ u, getUserRow s uid = some u → getPollRow s pid = none →
      cast_vote s pid oid uid = .error .PollNotFound) ∧
    (∀ u poll, getUserRow s uid = some u → getPollRow s pid = some poll →
      poll.is_active = false → cast_vote s pid oid uid = .error .PollInactive) ∧
    (∀ u poll, getUserRow s uid = some u → getPollRow s pid = some poll →
      poll.is_active = true → getOptionRow s oid = none →
      cast_vote s pid oid uid = .error .OptionNotFound) ∧
    (∀ u poll opt, getUserRow s uid = some u → getPollRow s pid = some poll →
      poll.is_active = true → getOptionRow s oid = some opt → opt.poll_id ≠ pid →
      cast_vote s pid oid uid = .error .OptionPollMismatch) ∧
    (∀ u poll opt, getUserRow s uid = some u → getPollRow s pid = some poll →
      poll.is_active = true → getOptionRow s oid = some opt → opt.poll_id = pid →
      has_user_voted s pid uid = true →
      cast_vote s pid oid uid = .ok (false, s)) ∧
    (∀ u poll opt, getUserRow s uid = some u → getPollRow s pid = some poll →
      poll.is_active = true → getOptionRow s oid = some opt → opt.poll_id = pid →
      has_user_voted s pid uid = false →
      cast_vote s pid oid uid =
        .ok (true,
          { s with
              votes := s.votes ++
                [{ id := s.next_vote_id, user_id := uid, poll_id := pid, option_id := oid }]
              next_vote_id := s.next_vote_id + 1 })) := by
  refine ⟨fun h => by simp [cast_vote, h], ?_, ?_, ?_, ?_, ?_, ?_⟩
  · intro u hu hp; simp [cast_vote, hu, hp]
  · intro u poll hu hp ha; simp [cast_vote, hu, hp, ha]
  · intro u poll hu hp ha ho; simp [cast_vote, hu, hp, ha, ho]
  · intro u poll opt hu hp ha ho hm; simp [cast_vote, hu, hp, ha, ho, hm]
  · intro u poll opt hu hp ha ho hm hv; simp [cast_vote, hu, hp, ha, ho, hm, hv]
  · intro u poll opt hu hp ha ho hm hv; simp [cast_vote, hu, hp, ha, ho, hm, hv]

/-- C1 witness: with no user the earliest failure `UserNotFound` is
reported even though the poll is also missing; with a valid user and an
inactive poll the report is `PollInactive` even though user 1 already has
no conflicting checks after it. -/
theorem cast_vote_check_order_witness :
    cast_vote emptyStore 1 1 1 = .error .UserNotFound ∧
    cast_vote exC6 1 1 1 = .error .PollInactive := by
  constructor
  · exact (cast_vote_check_order emptyStore 1 1 1).1 rfl
  · exact (cast_vote_check_order exC6 1 1 1).2.2.1 exUser
      { id := 1, title := "t", description := "", creator_id := 1, is_active := false }
      rfl rfl rfl

/-!  C6: inactive poll. -/

/-- C6 counterexample: in `exC6` poll 1 is inactive and user 99 does not
exist; `cast_vote` fails with `UserNotFound`, not `PollInactive`, so the
claim's "regardless of whether the voter id is valid" is false. -/
theorem cast_vote_inactive_counterexample :
    (getPollRow exC6 1).map Poll.is_active = some false ∧
    cast_vote exC6 1 1 99 = .error .UserNotFound ∧
    cast_vote exC6 1 1 99 ≠ .error .PollInactive := by
  refine ⟨rfl, rfl, fun h => ?_⟩
  have h0 : cast_vote exC6 1 1 99 = .error .UserNotFound := rfl
  exact ServiceError.noConfusion (Except.error.inj (h0.symm.trans h))

/-- C6 amended: when the voter id resolves to an existing user and the
poll id resolves to an inactive poll, `cast_vote` fails with
`PollInactive` regardless of option validity. -/
theorem cast_vote_inactive (s : Store) (pid oid uid : Nat) (u : User) (poll : Poll)
    (hu : getUserRow s uid = some u) (hp : getPollRow s pid = some poll)
    (ha : poll.is_active = false) :
    cast_vote s pid oid uid = .error .PollInactive := by
  simp [cast_vote, hu, hp, ha]

/-- C6 witness: an existing user voting a nonexistent option of an
inactive poll still gets `PollInactive`. -/
theorem cast_vote_inactive_witness : cast_vote exC6 1 99 1 = .error .PollInactive :=
  cast_vote_inactive exC6 1 99 1 exUser
    { id := 1, title := "t", description := "", creator_id := 1, is_active := false }
    rfl rfl rfl

/-!  C7: `create_poll` with an unknown creator. -/

/-- C7: with a creator id that resolves to no user, `create_poll` fails
with `CreatorNotFound` and the store is unchanged — no poll row and no
option row is persisted. -/
theorem create_poll_creator_not_found (s : Store) (t d : String)
    (texts : List String) (cid : Nat) (h : getUserRow s cid = none) :
    create_poll s t d texts cid = .error .CreatorNotFound ∧
    applyOp (.createPoll t d texts cid) s = s := by
  refine ⟨by simp [create_poll, h], ?_⟩
  simp [applyOp, create_poll, h]

/-- C7 witness: creating a poll in the empty store fails and persists
nothing. -/
theorem create_poll_creator_not_found_witness :
    create_poll emptyStore "t" "" ["A", "B"] 1 = .error .CreatorNotFound ∧
    applyOp (.createPoll "t" "" ["A", "B"] 1) emptyStore = emptyStore :=
  create_poll_creator_not_found emptyStore "t" "" ["A", "B"] 1 rfl

/-!  C10: repeated vote with a different valid option. -/

/-- C10: when user `uid` already has a vote on poll `pid`, `cast_vote`
with any existing option of that poll — including one different from the
option originally voted for — returns `false` and leaves the store, in
particular the vote ledger and the original vote's option, unchanged. -/
theorem cast_vote_already_voted (s : Store) (pid oid uid : Nat)
    (u : User) (poll : Poll) (opt : PollOption)
    (hu : getUserRow s uid = some u) (hp : getPollRow s pid = some poll)
    (ha : poll.is_active = true) (ho : getOptionRow s oid = some opt)
    (hm : opt.poll_id = pid) (hv : has_user_voted s pid uid = true) :
    cast_vote s pid oid uid = .ok (false, s) := by
  simp [cast_vote, hu, hp, ha, ho, hm, hv]

/-- C10 witness: user 1 voted option 1; re-voting option 2 of the same
poll returns `false` with the store unchanged. -/
theorem cast_vote_already_voted_witness :
    cast_vote exC10 1 2 1 = .ok (false, exC10) :=
  cast_vote_already_voted exC10 1 2 1 exUser
    { id := 1, title := "t", description := "", creator_id := 1, is_active := true }
    { id := 2, text := "B", poll_id := 1 }
    rfl rfl rfl rfl rfl rfl

/-!  C5: `deactivate_poll` and the one-way active flag. -/

/-- Characterization of a successful `create_user`: the new row is
appended and only the user table and its counter change. -/
theorem create_user_ok (s : Store) (un em : String) (u : User) (s' : Store)
    (h : create_user s un em = .ok (u, s')) :
    u = { id := s.next_user_id, username := un, email := em } ∧
    s' = { s with users := s.users ++ [u], next_user_id := s.next_user_id + 1 } := by
  unfold create_user at h
  split at h
  · simp at h
  · split at h
    · simp at h
    · simp only [Except.ok.injEq, Prod.mk.injEq] at h
      obtain ⟨hu, hs⟩ := h
      exact ⟨hu.symm, by rw [← hs, ← hu]⟩

/-- Characterization of a successful `create_poll`'s resulting store. -/
theorem create_poll_ok (s : Store) (t d : String) (texts : List String) (cid : Nat)
    (agg : PollAgg) (s' : Store) (h : create_poll s t d texts cid = .ok (agg, s')) :
    s' = createPollState s t d texts cid := by
  unfold create_poll at h
  split at h
  · simp at h
  · split at h <;>
    · simp only [Except.ok.injEq, Prod.mk.injEq] at h
      exact h.2.symm

/-- Characterization of a successful `cast_vote`'s resulting store:
either an already-voted `false` with the store untouched, or a `true`
with exactly one vote row appended. -/
theorem cast_vote_ok (s : Store) (pid oid uid : Nat) (b : Bool) (s' : Store)
    (h : cast_vote s pid oid uid = .ok (b, s')) :
    (b = false ∧ s' = s) ∨
    (b = true ∧ has_user_voted s pid uid = false ∧
      s' = { s with
              votes := s.votes ++
                [{ id := s.next_vote_id, user_id := uid, poll_id := pid, option_id := oid }]
              next_vote_id := s.next_vote_id + 1 }) := by
  unfold cast_vote at h
  split at h
  · simp at h
  · split at h
    · simp at h
    · split at h
      · simp at h
      · split at h
        · simp at h
        · split at h
          · simp at h
          · rename_i hvoted
            split at h
            · left
              simp only [Except.ok.injEq, Prod.mk.injEq] at h
              exact ⟨h.1.symm, h.2.symm⟩
            · right
              rename_i hnv
              simp only [Except.ok.injEq, Prod.mk.injEq] at h
              exact ⟨h.1.symm, Bool.not_eq_true _ ▸ eq_false_of_ne_true hnv, h.2.symm⟩

/-- The update function of `deactivate_poll` preserves row ids. -/
theorem deactivateFun_id (pid : Nat) (p : Poll) :
    (if p.id == pid then { p with is_active := false } else p).id = p.id := by
  split <;> rfl

/-- `find?` by id through the `deactivate_poll` row update. -/
theorem getPollRow_map_deactivate (l : List Poll) (pid pid' : Nat) :
    (l.map (fun p => if p.id == pid' then { p with is_active := false } else p)).find?
        (fun p => p.id == pid) =
      (l.find? (fun p => p.id == pid)).map
        (fun p => if p.id == pid' then { p with is_active := false } else p) := by
  rw [List.find?_map]
  have hcomp :
      ((fun p : Poll => p.id == pid) ∘
        fun p => if p.id == pid' then { p with is_active := false } else p) =
      fun p : Poll => p.id == pid := by
    funext p
    rw [Function.comp_apply, deactivateFun_id pid' p]
  rw [hcomp]

/-- No service operation turns an inactive poll active again. -/
theorem getPollRow_applyOp_inactive (o : Op) (s : Store) (pid : Nat) (poll : Poll)
    (hp : getPollRow s pid = some poll) (ha : poll.is_active = false) :
    ∀ p', getPollRow (applyOp o s) pid = some p' → p'.is_active = false := by
  intro p' hp'
  cases o with
  | createUser un em =>
    rw [applyOp] at hp'
    split at hp'
    · rename_i u s' h
      obtain ⟨-, hs⟩ := create_user_ok s un em u s' h
      rw [hs] at hp'
      rw [getPollRow] at hp hp'
      rw [hp'] at hp
      cases hp
      exact ha
    · rw [hp'] at hp; cases hp; exact ha
  | createPoll t d texts cid =>
    rw [applyOp] at hp'
    split at hp'
    · rename_i agg s' h
      rw [create_poll_ok s t d texts cid agg s' h] at hp'
      rw [getPollRow] at hp hp'
      simp only [createPollState, List.find?_append, hp, Option.or_some] at hp'
      cases hp'
      exact ha
    · rw [hp'] at hp; cases hp; exact ha
  | castVote pid2 oid2 uid2 =>
    rw [applyOp] at hp'
    split at hp'
    · rename_i b s' h
      rcases cast_vote_ok s pid2 oid2 uid2 b s' h with ⟨-, hs⟩ | ⟨-, -, hs⟩ <;>
      · rw [hs] at hp'
        rw [getPollRow] at hp hp'
        rw [hp'] at hp
        cases hp
        exact ha
    · rw [hp'] at hp; cases hp; exact ha
  | deactivatePoll pid2 uid2 =>
    rw [applyOp, deactivate_poll] at hp'
    split at hp'
    · rw [hp'] at hp; cases hp; exact ha
    · split at hp'
      · rw [hp'] at hp; cases hp; exact ha
      · rw [getPollRow] at hp'
        simp only [getPollRow_map_deactivate] at hp'
        rw [getPollRow] at hp
        rw [hp] at hp'
        simp only [Option.map_some'] at hp'
        have hx := Option.some.inj hp'
        subst hx
        split <;> simp [ha]

/-- C5: `deactivate_poll` returns `false` and leaves the store unchanged
when the poll is missing or the caller is not the creator; when the caller
is the creator it returns `true` and the poll's active flag becomes
`false`; and no service operation ever sets an inactive poll's flag back
to `true`. -/
theorem deactivate_poll_spec (s : Store) (pid uid : Nat) :
    (getPollRow s pid = none → deactivate_poll s pid uid = (false, s)) ∧
    (∀ poll, getPollRow s pid = some poll → poll.creator_id ≠ uid →
      deactivate_poll s pid uid = (false, s)) ∧
    (∀ poll, getPollRow s pid = some poll → poll.creator_id = uid →
      (deactivate_poll s pid uid).1 = true ∧
      getPollRow (deactivate_poll s pid uid).2 pid = some { poll with is_active := false }) ∧
    (∀ o poll, getPollRow s pid = some poll → poll.is_active = false →
      ∀ p', getPollRow (applyOp o s) pid = some p' → p'.is_active = false) := by
  refine ⟨?_, ?_, ?_, ?_⟩
  · intro h; simp [deactivate_poll, h]
  · intro poll hp hc; simp [deactivate_poll, hp, hc]
  · intro poll hp hc
    have hp0 : s.polls.find? (fun p => p.id == pid) = some poll := hp
    have hid : poll.id = pid := by simpa using List.find?_some hp0
    have hres : deactivate_poll s pid uid =
        (true,
         { s with
            polls := s.polls.map
              (fun p => if p.id == pid then { p with is_active := false } else p) }) := by
      simp only [deactivate_poll, hp, hc, ne_eq, not_true_eq_false, if_false]
    constructor
    · rw [hres]
    · rw [hres, getPollRow]
      simp only [getPollRow_map_deactivate]
      rw [hp0]
      simp [hid]
  · intro o poll hp ha
    exact getPollRow_applyOp_inactive o s pid poll hp ha

/-- C5 witness: on `exC10` (poll 1 created by user 1, active) a
deactivation by user 2 fails and changes nothing, a deactivation by user 1
succeeds and the poll reads back inactive, and a later operation (user 2
voting) leaves it inactive. -/
theorem deactivate_poll_spec_witness :
    deactivate_poll exC10 1 2 = (false, exC10) ∧
    (deactivate_poll exC10 1 1).1 = true ∧
    getPollRow (deactivate_poll exC10 1 1).2 1 =
      some { id := 1, title := "t", description := "", creator_id := 1, is_active := false } ∧
    (∀ p', getPollRow (applyOp (.castVote 1 2 2) (deactivate_poll exC10 1 1).2) 1 = some p' →
      p'.is_active = false) := by
  have hpoll : getPollRow exC10 1 =
      some { id := 1, title := "t", description := "", creator_id := 1, is_active := true } := rfl
  refine ⟨?_, ?_, ?_, ?_⟩
  · exact (deactivate_poll_spec exC10 1 2).2.1 _ hpoll (by decide)
  · exact ((deactivate_poll_spec exC10 1 1).2.2.1 _ hpoll rfl).1
  · exact ((deactivate_poll_spec exC10 1 1).2.2.1 _ hpoll rfl).2
  · exact (deactivate_poll_spec (deactivate_poll exC10 1 1).2 1 2).2.2.2 (.castVote 1 2 2) _ rfl rfl

/-!  C3: `create_poll` on valid input. -/

/-- The option rows inserted by `create_poll` carry the input texts in
input order. -/
theorem mkOptions_map_text (texts : List String) (pid k : Nat) :
    (mkOptions texts pid k).map PollOption.text = texts := by
  induction texts generalizing k with
  | nil => rfl
  | cons t ts ih => simp [mkOptions, ih]

/-- Every option row inserted by `create_poll` references the new poll. -/
theorem mkOptions_poll_id (texts : List String) (pid k : Nat) :
    ∀ o ∈ mkOptions texts pid k, o.poll_id = pid := by
  induction texts generalizing k with
  | nil => intro o h; cases h
  | cons t ts ih =>
    intro o h
    rcases List.mem_cons.mp h with h | h
    · rw [h]
    · exact ih (k + 1) o h

/-- C3: on a store whose poll-id counter is fresh, `create_poll` with an
existing creator and a valid option list (2 to 10 unique non-empty texts)
succeeds and returns a poll whose options are exactly the given texts in
input order and whose active flag is `true`. -/
theorem create_poll_valid (s : Store) (t d : String) (texts : List String) (cid : Nat)
    (u : User) (hc : getUserRow s cid = some u)
    (hlen2 : 2 ≤ texts.length) (hlen10 : texts.length ≤ 10)
    (hnodup : texts.Nodup) (hne : ∀ x ∈ texts, x ≠ "")
    (hfreshp : ∀ p ∈ s.polls, p.id ≠ s.next_poll_id)
    (hfresho : ∀ o ∈ s.options, o.poll_id ≠ s.next_poll_id) :
    create_poll s t d texts cid = .ok (createPollAgg s t d texts cid, createPollState s t d texts cid) ∧
    (createPollAgg s t d texts cid).options.map PollOption.text = texts ∧
    (createPollAgg s t d texts cid).poll.is_active = true := by
  have hrow : getPollRow (createPollState s t d texts cid) s.next_poll_id =
      some (newPollRow s t d cid) := by
    rw [getPollRow]
    simp only [createPollState, List.find?_append]
    rw [List.find?_eq_none.mpr, Option.none_or]
    · simp [newPollRow]
    · intro p hp
      simp [hfreshp p hp]
  have hopts : (createPollState s t d texts cid).options.filter
      (fun o => o.poll_id == s.next_poll_id) =
      mkOptions texts s.next_poll_id s.next_option_id := by
    simp only [createPollState, List.filter_append]
    rw [List.filter_eq_nil_iff.mpr, List.nil_append, List.filter_eq_self.mpr]
    · intro o ho
      simp [mkOptions_poll_id texts s.next_poll_id s.next_option_id o ho]
    · intro o ho
      simp [hfresho o ho]
  have hget : get_poll (createPollState s t d texts cid) s.next_poll_id =
      some (createPollAgg s t d texts cid) := by
    rw [get_poll]
    simp only [hrow, hopts]
    simp [createPollAgg, createPollState, newPollRow, getUserRow]
  refine ⟨?_, ?_, rfl⟩
  · simp only [create_poll, hc, hget]
  · simpa [createPollAgg] using mkOptions_map_text texts s.next_poll_id s.next_option_id

/-- C3 witness: creating a two-option poll in a one-user store. -/
theorem create_poll_valid_witness :
    create_poll exUserStore "q" "" ["A", "B"] 1 =
      .ok (createPollAgg exUserStore "q" "" ["A", "B"] 1,
           createPollState exUserStore "q" "" ["A", "B"] 1) ∧
    (createPollAgg exUserStore "q" "" ["A", "B"] 1).options.map PollOption.text = ["A", "B"] ∧
    (createPollAgg exUserStore "q" "" ["A", "B"] 1).poll.is_active = true :=
  create_poll_valid exUserStore "q" "" ["A", "B"] 1 exUser rfl
    (by decide) (by decide) (by decide) (by decide)
    (by intro p hp; cases hp) (by intro o ho; cases ho)

/-!  C8: the login/registration policy. -/

/-- C8 counterexample: username "bob" does not exist but its supplied
email is already registered to "alice"; instead of creating "bob" and
logging in, the attempt fails with `DuplicateEmail` and the store is
unchanged. -/
theorem handle_login_counterexample :
    get_user_by_username exUserStore "bob" = none ∧
    handle_login exUserStore "bob" "a@x.com" = (.createFailed .DuplicateEmail, exUserStore) :=
  ⟨rfl, rfl⟩

/-- C8 amended: an existing username logs in iff the stored email matches
the supplied one case-insensitively (a mismatch is a denial, creating no
user); an unknown username creates and logs in a new user — provided the
supplied email is not already registered (by exact match) to another
user, in which case the attempt fails with `DuplicateEmail`, no user is
created and nobody is logged in. -/
theorem handle_login_spec (s : Store) (username email : String) :
    (∀ u, get_user_by_username s username = some u →
      (pyLower u.email = pyLower email → handle_login s username email = (.loggedIn u.id, s)) ∧
      (pyLower u.email ≠ pyLower email → handle_login s username email = (.emailMismatch, s))) ∧
    (get_user_by_username s username = none →
      (s.users.find? (fun u => u.email == email) = none →
        handle_login s username email =
          (.loggedIn s.next_user_id,
           { s with
              users := s.users ++ [{ id := s.next_user_id, username := username, email := email }]
              next_user_id := s.next_user_id + 1 })) ∧
      (∀ u', s.users.find? (fun u => u.email == email) = some u' →
        handle_login s username email = (.createFailed .DuplicateEmail, s))) := by
  constructor
  · intro u hu
    constructor
    · intro hm; simp [handle_login, hu, hm]
    · intro hm; simp [handle_login, hu, hm]
  · intro hn
    have hn' : s.users.find? (fun u => u.username == username) = none := hn
    constructor
    · intro he
      simp [handle_login, hn, create_user, hn', he]
    · intro u' he
      simp [handle_login, hn, create_user, hn', he]

/-- C8 witness: the four login outcomes on the one-user store — matching
login (case-insensitive), email mismatch, fresh registration, and a
duplicate email blocking registration. -/
theorem handle_login_spec_witness :
    handle_login exUserStore "alice" "A@X.com" = (.loggedIn 1, exUserStore) ∧
    handle_login exUserStore "alice" "b@x.com" = (.emailMismatch, exUserStore) ∧
    handle_login exUserStore "bob" "b@x.com" =
      (.loggedIn 2,
       { exUserStore with
          users := exUserStore.users ++ [{ id := 2, username := "bob", email := "b@x.com" }]
          next_user_id := 3 }) ∧
    handle_login exUserStore "bob" "a@x.com" = (.createFailed .DuplicateEmail, exUserStore) := by
  refine ⟨?_, ?_, ?_, ?_⟩
  · exact ((handle_login_spec exUserStore "alice" "A@X.com").1 exUser rfl).1 (by decide)
  · exact ((handle_login_spec exUserStore "alice" "b@x.com").1 exUser rfl).2 (by decide)
  · exact ((handle_login_spec exUserStore "bob" "b@x.com").2 rfl).1 rfl
  · exact ((handle_login_spec exUserStore "bob" "a@x.com").2 rfl).2 exUser rfl

/-!  C4: `has_user_voted` is monotone and flips only on a successful
`cast_vote`. -/

/-- `has_user_voted` reads only the vote table. -/
theorem has_user_voted_votes (s s' : Store) (h : s'.votes = s.votes) (pid uid : Nat) :
    has_user_voted s' pid uid = has_user_voted s pid uid := by
  rw [has_user_voted, has_user_voted, h]

/-- Every operation leaves the vote table alone or appends one row. -/
theorem applyOp_votes (o : Op) (s : Store) :
    (applyOp o s).votes = s.votes ∨ ∃ v, (applyOp o s).votes = s.votes ++ [v] := by
  cases o with
  | createUser un em =>
    rw [applyOp]
    split
    · rename_i u s' h
      obtain ⟨-, hs⟩ := create_user_ok s un em u s' h
      left; rw [hs]
    · left; rfl
  | createPoll t d texts cid =>
    rw [applyOp]
    split
    · rename_i agg s' h
      left; rw [create_poll_ok s t d texts cid agg s' h]; rfl
    · left; rfl
  | castVote pid oid uid =>
    rw [applyOp]
    split
    · rename_i b s' h
      rcases cast_vote_ok s pid oid uid b s' h with ⟨-, hs⟩ | ⟨-, -, hs⟩
      · left; rw [hs]
      · right; exact ⟨_, by rw [hs]⟩
    · left; rfl
  | deactivatePoll pid uid =>
    rw [applyOp, deactivate_poll]
    split
    · left; rfl
    · split
      · left; rfl
      · left; rfl

/-- Once `has_user_voted` holds it keeps holding after any operation. -/
theorem has_user_voted_mono (o : Op) (s : Store) (pid uid : Nat)
    (hv : has_user_voted s pid uid = true) :
    has_user_voted (applyOp o s) pid uid = true := by
  rw [has_user_voted, List.find?_isSome] at hv ⊢
  obtain ⟨x, hx, hpx⟩ := hv
  rcases applyOp_votes o s with h | ⟨v, h⟩
  · exact ⟨x, by rw [h]; exact hx, hpx⟩
  · exact ⟨x, by rw [h]; exact List.mem_append_left _ hx, hpx⟩

/-- `has_user_voted` can flip from false to true only through a
successful `cast_vote` of that user on that poll. -/
theorem has_user_voted_flip (o : Op) (s : Store) (pid uid : Nat)
    (h0 : has_user_voted s pid uid = false)
    (h1 : has_user_voted (applyOp o s) pid uid = true) :
    ∃ oid, o = Op.castVote pid oid uid ∧
      cast_vote s pid oid uid = .ok (true, applyOp o s) := by
  cases o with
  | createUser un em =>
    exfalso
    have hv : (applyOp (Op.createUser un em) s).votes = s.votes := by
      rw [applyOp]
      split
      · rename_i u s' h
        obtain ⟨-, hs⟩ := create_user_ok s un em u s' h
        rw [hs]
      · rfl
    rw [has_user_voted_votes _ _ hv, h0] at h1
    exact Bool.false_ne_true h1
  | createPoll t d texts cid =>
    exfalso
    have hv : (applyOp (Op.createPoll t d texts cid) s).votes = s.votes := by
      rw [applyOp]
      split
      · rename_i agg s' h
        rw [create_poll_ok s t d texts cid agg s' h]; rfl
      · rfl
    rw [has_user_voted_votes _ _ hv, h0] at h1
    exact Bool.false_ne_true h1
  | deactivatePoll pid2 uid2 =>
    exfalso
    have hv : (applyOp (Op.deactivatePoll pid2 uid2) s).votes = s.votes := by
      rw [applyOp, deactivate_poll]
      split
      · rfl
      · split
        · rfl
        · rfl
    rw [has_user_voted_votes _ _ hv, h0] at h1
    exact Bool.false_ne_true h1
  | castVote pid2 oid2 uid2 =>
    have happ : applyOp (Op.castVote pid2 oid2 uid2) s =
        match cast_vote s pid2 oid2 uid2 with
        | .ok (_, s') => s'
        | .error _ => s := rfl
    rcases hres : cast_vote s pid2 oid2 uid2 with e | ⟨b, s'⟩
    · exfalso
      rw [happ, hres] at h1
      rw [h0] at h1
      exact Bool.false_ne_true h1
    · rcases cast_vote_ok s pid2 oid2 uid2 b s' hres with ⟨-, hs⟩ | ⟨hb, -, hs⟩
      · exfalso
        rw [happ, hres, hs] at h1
        rw [h0] at h1
        exact Bool.false_ne_true h1
      · subst hb
        rw [happ, hres] at h1
        rw [has_user_voted, hs, List.find?_isSome] at h1
        obtain ⟨x, hx, hpx⟩ := h1
        rcases List.mem_append.mp hx with hx | hx
        · exfalso
          have hmem := (@List.find?_isSome Vote s.votes
            (fun v => v.user_id == uid && v.poll_id == pid)).mpr ⟨x, hx, hpx⟩
          rw [has_user_voted] at h0
          rw [hmem] at h0
          exact Bool.true_eq_false.mp h0
        · have hxv : x = { id := s.next_vote_id, user_id := uid2, poll_id := pid2, option_id := oid2 } := by
            simpa using hx
          subst hxv
          simp only [Bool.and_eq_true, beq_iff_eq] at hpx
          obtain ⟨huid, hpid⟩ := hpx
          subst huid
          subst hpid
          refine ⟨oid2, rfl, ?_⟩
          rw [happ, hres]

/-- C4: `has_user_voted(p, u)` is false in the empty store, is preserved
(true stays true) by every service operation, and becomes true only
through a successful `cast_vote` by `u` on `p` — so it is false before
the first successful vote and true forever after, never reverting. -/
theorem has_user_voted_monotone :
    (∀ pid uid, has_user_voted emptyStore pid uid = false) ∧
    (∀ o s pid uid, has_user_voted s pid uid = true →
      has_user_voted (applyOp o s) pid uid = true) ∧
    (∀ o s pid uid, has_user_voted s pid uid = false →
      has_user_voted (applyOp o s) pid uid = true →
      ∃ oid, o = Op.castVote pid oid uid ∧
        cast_vote s pid oid uid = .ok (true, applyOp o s)) :=
  ⟨fun _ _ => rfl, has_user_voted_mono, has_user_voted_flip⟩

/-- C4 witness: user 1's vote on poll 1 survives a deactivation of the
poll; the empty store records no vote. -/
theorem has_user_voted_monotone_witness :
    has_user_voted emptyStore 1 1 = false ∧
    has_user_voted (applyOp (.deactivatePoll 1 1) exC10) 1 1 = true :=
  ⟨has_user_voted_monotone.1 1 1,
   has_user_voted_monotone.2.1 (.deactivatePoll 1 1) exC10 1 1 rfl⟩

/-!  C2: `get_poll_results` totals and percentages. -/

/-- Floor of a ratio of naturals, cast to `ℚ`. -/
theorem floor_ratio (n d : Nat) : ⌊(n : ℚ) / (d : ℚ)⌋ = ((n / d : ℕ) : ℤ) := by
  rw [Rat.floor_natCast_div_natCast, Int.natCast_div]

/-- Fractional part of a ratio of naturals. -/
theorem frac_ratio (n d : Nat) (hd : 0 < d) :
    (n : ℚ) / d - ((((n / d : ℕ) : ℤ) : ℚ)) = ((n % d : ℕ) : ℚ) / d := by
  have hd0 : (d : ℚ) ≠ 0 := Nat.cast_ne_zero.mpr hd.ne'
  have hn : (n : ℚ) = (d : ℚ) * ((n / d : ℕ) : ℚ) + ((n % d : ℕ) : ℚ) := by
    exact_mod_cast (Nat.div_add_mod n d).symm
  rw [Int.cast_natCast, hn]
  field_simp

/-- The half comparison of the fractional part, in integer arithmetic. -/
theorem ratio_lt_half_iff (m d : Nat) (hd : 0 < d) :
    ((m : ℚ) / d < 1 / 2) ↔ (2 * (m : ℤ) < d) := by
  rw [div_lt_div_iff (by exact_mod_cast hd) (by norm_num : (0 : ℚ) < 2)]
  norm_cast
  omega

/-- The dual half comparison, in integer arithmetic. -/
theorem half_lt_ratio_iff (m d : Nat) (hd : 0 < d) :
    (1 / 2 < (m : ℚ) / d) ↔ ((d : ℤ) < 2 * m) := by
  rw [div_lt_div_iff (by norm_num : (0 : ℚ) < 2) (by exact_mod_cast hd)]
  norm_cast
  omega

/-- Executable integer rounding agrees with the rational round-half-even
of the same ratio. -/
theorem roundHalfEvenDiv_eq (n d : Nat) (hd : 0 < d) :
    ((roundHalfEvenDiv n d : ℕ) : ℤ) = roundHalfEven ((n : ℚ) / d) := by
  rw [roundHalfEven, roundHalfEvenDiv]
  rw [floor_ratio n d]
  rw [frac_ratio n d hd]
  simp only [ratio_lt_half_iff _ d hd, half_lt_ratio_iff _ d hd]
  have hm2 : ((((n / d : ℕ) : ℤ)) % 2 = 0) ↔ ((n / d) % 2 = 0) := by omega
  simp only [hm2]
  have hc1 : (2 * ((n % d : ℕ) : ℤ) < (d : ℤ)) ↔ (2 * (n % d) < d) := by omega
  have hc2 : ((d : ℤ) < 2 * ((n % d : ℕ) : ℤ)) ↔ (d < 2 * (n % d)) := by omega
  simp only [hc1, hc2]
  split_ifs <;> push_cast <;> ring

/-- The stored hundredths value is exactly the spec formula
`round(vote_count / total_votes * 100, 2)`. -/
theorem pctHundredths_eq (vc tv : Nat) (htv : 0 < tv) :
    ((pctHundredths vc tv : ℕ) : ℚ) / 100 = round2 ((vc : ℚ) / (tv : ℚ) * 100) := by
  rw [round2, pctHundredths]
  have h1 : (vc : ℚ) / tv * 100 * 100 = ((vc * 10000 : ℕ) : ℚ) / tv := by
    push_cast
    ring
  rw [h1, ← roundHalfEvenDiv_eq _ _ htv, Int.cast_natCast]

/-- C2: for every existing poll, `get_poll_results` reports
`total_votes` equal to the vote count of the poll; each option's
`vote_count` is the count of votes referencing that option, and its
percentage equals `round(vote_count / total_votes * 100, 2)` when
`total_votes > 0` and exactly `0` when `total_votes = 0`; each percentage
depends only on that option's own count and the total (no
normalization). -/
theorem get_poll_results_spec (s : Store) (pid : Nat) (r : PollResults)
    (h : get_poll_results s pid = some r) :
    r.total_votes = countVotesForPoll s pid ∧
    (∀ orr ∈ r.options,
      orr.vote_count = countVotesForOption s orr.option_id ∧
      ((orr.percentage_hundredths : ℚ) / 100 =
        if 0 < r.total_votes then
          round2 ((orr.vote_count : ℚ) / (r.total_votes : ℚ) * 100)
        else 0)) ∧
    (r.total_votes = 0 → ∀ orr ∈ r.options, orr.percentage_hundredths = 0) := by
  rw [get_poll_results] at h
  split at h
  · simp at h
  · rename_i poll hpoll
    simp only [Option.some.injEq] at h
    subst h
    refine ⟨rfl, ?_, ?_⟩
    · intro orr horr
      simp only [List.mem_map] at horr
      obtain ⟨o, ho, horr⟩ := horr
      subst horr
      refine ⟨rfl, ?_⟩
      by_cases htv : 0 < countVotesForPoll s pid
      · simp only [gt_iff_lt, htv, if_pos]
        exact pctHundredths_eq _ _ htv
      · simp only [gt_iff_lt, htv, if_neg, if_false]
        norm_num
    · intro h0 orr horr
      have h1 : countVotesForPoll s pid = 0 := h0
      simp only [List.mem_map] at horr
      obtain ⟨o, ho, horr⟩ := horr
      subst horr
      simp [h1]

/-- C2 witness: the §8 scenario — totals and the 66.67 / 33.33 / 0 / 0
percentages, the latter two matching the exact rational formula. -/
theorem get_poll_results_spec_witness :
    get_poll_results exResults 1 = some exResultsR ∧
    exResultsR.total_votes = countVotesForPoll exResults 1 ∧
    (6667 : ℚ) / 100 = round2 ((2 : ℚ) / 3 * 100) ∧
    (3333 : ℚ) / 100 = round2 ((1 : ℚ) / 3 * 100) := by
  have h := get_poll_results_spec exResults 1 exResultsR rfl
  refine ⟨rfl, h.1, ?_, ?_⟩
  · have h2 := (h.2.1 ⟨1, "Python", 2, 6667⟩ (by decide)).2
    norm_num [exResultsR] at h2
    rw [show ((2 : ℚ) / 3 * 100) = 200 / 3 by norm_num]
    exact h2
  · have h2 := (h.2.1 ⟨2, "JavaScript", 1, 3333⟩ (by decide)).2
    norm_num [exResultsR] at h2
    rw [show ((1 : ℚ) / 3 * 100) = 100 / 3 by norm_num]
    exact h2

/-!  C9: on reachable stores the total equals the sum of option counts. -/

/-- The ids of the inserted option rows are consecutive naturals. -/
theorem mkOptions_map_id (texts : List String) (pid k : Nat) :
    (mkOptions texts pid k).map PollOption.id = List.range' k texts.length := by
  induction texts generalizing k with
  | nil => rfl
  | cons t ts ih =>
    rw [mkOptions, List.map_cons, List.length_cons, List.range'_succ, ih]

/-- A successful `cast_vote` found an option with the requested id
belonging to the requested poll. -/
theorem cast_vote_ok_opt (s : Store) (pid oid uid : Nat) (b : Bool) (s' : Store)
    (h : cast_vote s pid oid uid = .ok (b, s')) :
    ∃ opt ∈ s.options, opt.id = oid ∧ opt.poll_id = pid := by
  rw [cast_vote] at h
  split at h
  · simp at h
  · split at h
    · simp at h
    · split at h
      · simp at h
      · split at h
        · simp at h
        · rename_i opt hfind
          split at h
          · simp at h
          · rename_i hne
            have hfind' : s.options.find? (fun o => o.id == oid) = some opt := hfind
            refine ⟨opt, List.mem_of_find?_eq_some hfind', ?_, not_not.mp hne⟩
            simpa using List.find?_some hfind'

/-- Every service operation preserves the store invariants. -/
theorem storeInv_applyOp (o : Op) (s : Store) (h : StoreInv s) : StoreInv (applyOp o s) := by
  cases o with
  | createUser un em =>
    rw [applyOp]
    split
    · rename_i u s' hc
      obtain ⟨-, hs⟩ := create_user_ok s un em u s' hc
      subst hs
      exact ⟨h.opt_nodup, h.opt_lt, h.vote_opt⟩
    · exact h
  | createPoll t d texts cid =>
    rw [applyOp]
    split
    · rename_i agg s' hc
      rw [create_poll_ok s t d texts cid agg s' hc]
      refine ⟨?_, ?_, ?_⟩
      · show ((s.options ++ mkOptions texts s.next_poll_id s.next_option_id).map
          PollOption.id).Nodup
        rw [List.map_append, mkOptions_map_id]
        refine List.Nodup.append h.opt_nodup (List.nodup_range' _ _) ?_
        intro x hx hx'
        rcases List.mem_map.mp hx with ⟨o2, ho2, rfl⟩
        have h1 := h.opt_lt o2 ho2
        have h2 := (List.mem_range'_1.mp hx').1
        omega
      · intro o2 ho2
        show o2.id < s.next_option_id + texts.length
        have ho2' : o2 ∈ s.options ++ mkOptions texts s.next_poll_id s.next_option_id := ho2
        rcases List.mem_append.mp ho2' with hmem | hmem
        · have := h.opt_lt o2 hmem
          omega
        · have hin : o2.id ∈ List.range' s.next_option_id texts.length := by
            rw [← mkOptions_map_id texts s.next_poll_id s.next_option_id]
            exact List.mem_map_of_mem PollOption.id hmem
          have := (List.mem_range'_1.mp hin).2
          omega
      · intro v hv
        obtain ⟨o2, ho2, h1, h2⟩ := h.vote_opt v hv
        exact ⟨o2, List.mem_append_left _ ho2, h1, h2⟩
    · exact h
  | castVote pid oid uid =>
    rw [applyOp]
    split
    · rename_i b s' hc
      rcases cast_vote_ok s pid oid uid b s' hc with ⟨-, hs⟩ | ⟨-, -, hs⟩
      · subst hs; exact h
      · subst hs
        refine ⟨h.opt_nodup, h.opt_lt, ?_⟩
        intro v hv
        have hv' : v ∈ s.votes ++
            [{ id := s.next_vote_id, user_id := uid, poll_id := pid, option_id := oid }] := hv
        rcases List.mem_append.mp hv' with hmem | hmem
        · exact h.vote_opt v hmem
        · have hveq : v = { id := s.next_vote_id, user_id := uid, poll_id := pid, option_id := oid } := by
            simpa using hmem
          subst hveq
          obtain ⟨opt, hopt, hoid, hpid⟩ := cast_vote_ok_opt s pid oid uid _ _ hc
          exact ⟨opt, hopt, hoid, hpid⟩
    · exact h
  | deactivatePoll pid uid =>
    have hv : (applyOp (Op.deactivatePoll pid uid) s).options = s.options ∧
        (applyOp (Op.deactivatePoll pid uid) s).votes = s.votes ∧
        (applyOp (Op.deactivatePoll pid uid) s).next_option_id = s.next_option_id := by
      rw [applyOp, deactivate_poll]
      split
      · exact ⟨rfl, rfl, rfl⟩
      · split
        · exact ⟨rfl, rfl, rfl⟩
        · exact ⟨rfl, rfl, rfl⟩
    obtain ⟨h1, h2, h3⟩ := hv
    exact ⟨by rw [h1]; exact h.opt_nodup,
           by rw [h1, h3]; exact h.opt_lt,
           by rw [h1, h2]; exact h.vote_opt⟩

/-- Every reachable store satisfies the invariants. -/
theorem reachable_storeInv (s : Store) (h : Reachable s) : StoreInv s := by
  induction h with
  | init =>
    exact ⟨List.nodup_nil, fun o ho => absurd ho (List.not_mem_nil o),
           fun v hv => absurd hv (List.not_mem_nil v)⟩
  | step o hr ih => exact storeInv_applyOp o _ ih

/-- The length of a filtered list as a sum of indicator values. -/
theorem length_filter_eq_sum {β : Type} (V : List β) (q : β → Bool) :
    (V.filter q).length = (V.map (fun b => if q b then 1 else 0)).sum := by
  induction V with
  | nil => rfl
  | cons x V ih =>
    rw [List.filter_cons]
    split
    · rename_i hq
      simp [ih, hq, Nat.add_comm]
    · rename_i hq
      simp [ih, hq]

/-- Exchanging a sum of filter lengths over a double scan. -/
theorem sum_length_filter_swap {α β : Type} (L : List α) (V : List β) (p : α → β → Bool) :
    (L.map (fun a => (V.filter (fun b => p a b)).length)).sum =
    (V.map (fun b => (L.filter (fun a => p a b)).length)).sum := by
  induction L with
  | nil => simp
  | cons a L ih =>
    simp only [List.map_cons, List.sum_cons, ih]
    have hone : ∀ b, ((a :: L).filter (fun a' => p a' b)).length =
        (if p a b then 1 else 0) + (L.filter (fun a' => p a' b)).length := by
      intro b
      rw [List.filter_cons]
      split <;> simp [Nat.add_comm]
    simp only [hone]
    rw [List.sum_map_add]
    congr 1
    exact length_filter_eq_sum V (fun b => p a b)

/-- With unique option ids, a vote whose option belongs to its poll is
counted exactly once across the options of poll `pid` — iff the vote is
on poll `pid`. -/
theorem filter_opts_for_vote (opts : List PollOption) (pid : Nat) (v : Vote)
    (hnd : (opts.map PollOption.id).Nodup)
    (hex : ∃ o ∈ opts, o.id = v.option_id ∧ o.poll_id = v.poll_id) :
    ((opts.filter (fun o => o.poll_id == pid)).filter
      (fun o => v.option_id == o.id)).length =
    if v.poll_id == pid then 1 else 0 := by
  induction opts with
  | nil =>
    obtain ⟨o, ho, -⟩ := hex
    cases ho
  | cons a opts ih =>
    rw [List.map_cons, List.nodup_cons] at hnd
    obtain ⟨hna, hnd⟩ := hnd
    obtain ⟨o₀, ho₀, hid, hpl⟩ := hex
    rcases List.mem_cons.mp ho₀ with rfl | ho₀
    · have htail : ((opts.filter (fun o => o.poll_id == pid)).filter
          (fun o => v.option_id == o.id)).length = 0 := by
        rw [List.length_eq_zero, List.filter_eq_nil_iff]
        intro o ho
        have ho' : o ∈ opts := List.mem_of_mem_filter ho
        have hne : o.id ≠ v.option_id := by
          intro he
          exact hna (by rw [hid, ← he]; exact List.mem_map_of_mem PollOption.id ho')
        simp only [beq_iff_eq]
        exact fun he => hne he.symm
      have hp2a : (v.option_id == o₀.id) = true := by simp [hid]
      rw [List.filter_cons]
      split
      · rename_i hpp
        rw [List.filter_cons, if_pos hp2a, List.length_cons, htail]
        have hvp : (v.poll_id == pid) = true := by rw [← hpl]; exact hpp
        rw [if_pos hvp]
      · rename_i hpp
        rw [htail]
        have hvp : ¬((v.poll_id == pid) = true) := by rw [← hpl]; exact hpp
        rw [if_neg hvp]
    · have hne : (v.option_id == a.id) = false := by
        rw [beq_eq_false_iff_ne]
        intro he
        exact hna (by rw [← he, ← hid]; exact List.mem_map_of_mem PollOption.id ho₀)
      rw [List.filter_cons]
      split
      · rw [List.filter_cons, if_neg (by simp [hne])]
        exact ih hnd ⟨o₀, ho₀, hid, hpl⟩
      · exact ih hnd ⟨o₀, ho₀, hid, hpl⟩

/-- C9: in every reachable store, for every existing poll, the
`total_votes` of `get_poll_results` equals the sum of the per-option
`vote_count`s it reports — sound even though each option's count scans
all votes with that option id without restricting to the poll, because
every stored vote references an option of its own poll (the invariant
preserved by `cast_vote`'s `OptionPollMismatch` check). -/
theorem get_poll_results_total_eq_sum (s : Store) (pid : Nat) (r : PollResults)
    (hr : Reachable s) (h : get_poll_results s pid = some r) :
    r.total_votes = (r.options.map OptionResult.vote_count).sum := by
  obtain ⟨hnd, -, hvo⟩ := reachable_storeInv s hr
  rw [get_poll_results] at h
  split at h
  · simp at h
  · simp only [Option.some.injEq] at h
    subst h
    rw [List.map_map]
    show countVotesForPoll s pid =
      ((s.options.filter (fun o => o.poll_id == pid)).map
        (fun o => (s.votes.filter (fun v => v.option_id == o.id)).length)).sum
    rw [sum_length_filter_swap]
    rw [List.map_congr_left
      (fun v hv => filter_opts_for_vote s.options pid v hnd (hvo v hv))]
    rw [countVotesForPoll]
    exact length_filter_eq_sum s.votes _

/-- C9 witness: a reachable three-operation history — register, create a
two-option poll, cast one vote — whose results report total 1 = 1 + 0. -/
theorem get_poll_results_total_eq_sum_witness :
    get_poll_results exReach 1 = some exReachR ∧
    exReachR.total_votes = (exReachR.options.map OptionResult.vote_count).sum :=
  ⟨rfl,
   get_poll_results_total_eq_sum exReach 1 exReachR
     (.step (.castVote 1 1 1)
       (.step (.createPoll "t" "" ["A", "B"] 1)
         (.step (.createUser "alice" "a@x.com") .init)))
     rfl⟩

end Voting
